import Mathlib

/-!
Verification of the Mar language interpreter (a Rust tree-walking
interpreter: lexer, parser, executor) against its natural-language
specification.  The development shallowly embeds the interpreter's data
model and the executor's evaluation functions, keeping the source's
names and case structure.

Modelling conventions, stated once:
* Rust `i32` payloads are modelled as unbounded `Int`; no settled claim
  depends on 32-bit wraparound, which only differs at magnitudes near 2^31.
* Rust `f64` payloads are modelled as exact rationals (`Rat`); no settled
  claim depends on rounding, infinities or NaN.
* A Rust `Vec` used as a stack (push/pop at the end) is modelled as a Lean
  list whose HEAD is the top of the stack; iterating the Vec in reverse
  order therefore corresponds to iterating the Lean list front to back.
* A Rust `HashMap` is modelled as an association list with replace-on-insert
  semantics; the interpreter only uses key lookup and insert, so the
  representation is observationally equivalent.
* A controlled interpreter diagnostic (`println!` of an error text followed
  by `std::process::exit(1)`) is modelled as `Err.rte msg`; a Rust panic
  (integer division by zero, `Option::unwrap` on `None`) is modelled as
  `Err.panicked msg`; these are distinct outcomes.  `Err.fuel` marks
  exhaustion of the step budget of the fuelled evaluator and is used to
  express divergence: a computation diverges iff it yields `Err.fuel` for
  every budget.
* Process standard output is modelled by the `output` field of the state.
-/

namespace Mar

/-- Token kinds, from `enum TokenType` of the source. -/
inductive TokenType where
  | ARROW | AND | ASSIGN | ASTERISK | CARET | COLON | COMMA | DECREMENT
  | DEFAULT | DIVISION | DOT | EOF | EQ | FLOAT | GT | GTE | ID | INCREMENT
  | INT | KEYWORD | LBRACE | LBRACKET | LPAREN | LT | LTE | MODULUS | MINUS
  | NE | NEGATE | OR | PLUS | RBRACE | RBRACKET | RPAREN | SEMI | SOC | STRING
  deriving DecidableEq, Repr

/-- `struct Token`. -/
structure Token where
  token_type : TokenType
  token_value : String
  deriving DecidableEq, Repr

/-- The AST, from `enum ASTNode` of the source.  `Rc` sharing is modelled by
plain ownership (subtrees are never aliased by the parser). -/
inductive ASTNode where
  | Integer (value : Int)
  | Float (value : Rat)
  | Str (value : String)
  | None
  | ID (name : String)
  | Bool (value : Bool)
  | Var (name : ASTNode) (value : Option ASTNode)
  | PropertyAccess (object : ASTNode) (property : ASTNode)
  | Index (object : ASTNode) (index : ASTNode)
  | Flow (value : String)
  | UnaryOperation (operand : ASTNode) (operator : String)
  | BinaryOperation (left : ASTNode) (operation : String) (right : ASTNode)
  | ExpressionList (list : List ASTNode)
  | If (condition : ASTNode) (if_block : List ASTNode)
      (else_block : Option (List ASTNode))
  | Match (option : ASTNode) (cases : List ASTNode)
  | Opt (condition : ASTNode) (block : List ASTNode)
  | Default
  | While (condition : ASTNode) (body : List ASTNode)
  | For (loop_vars : List ASTNode) (object : ASTNode) (body : List ASTNode)
  | Function (name : ASTNode)
      (parameters : Option (List ASTNode) × Option (List ASTNode))
      (block : List ASTNode)
  | FunctionCall (name : ASTNode) (args : List ASTNode)
  | Return (list : List ASTNode)
  | Class (name : ASTNode) (parent_classes : Option (List ASTNode))
      (block : List ASTNode)
  | Parent (name : ASTNode) (arguments : List ASTNode)
  | Use (modules : List ASTNode)
  deriving Repr

/-- Runtime values.  The source's `struct Value` keeps one `Option` field per
payload plus a `value_type` discriminant with the invariant that exactly the
discriminated field is `Some`; it is modelled as the corresponding sum.
Tags: 0 int, 1 float, 2 bool, 3 string, 4 None, 5 list. -/
inductive Value where
  | VInt (i : Int)
  | VFloat (q : Rat)
  | VBool (b : Bool)
  | VStr (s : String)
  | VNone
  | VList (l : List Value)
  deriving Repr

/-- `enum LazyResult` of the source: a computed value, the internal `Null`
(no usable result), or a deferred unevaluated expression. -/
inductive LazyResult where
  | Null
  | Int (i : Int)
  | Float (q : Rat)
  | Str (s : String)
  | Bool (b : Bool)
  | List (l : List Value)
  | None
  | Expression (expr : ASTNode)
  deriving Repr

/-- Fatal outcomes.  `rte` is a controlled interpreter diagnostic
(`println!` + `exit(1)`); `panicked` is a Rust runtime panic; `fuel` is
exhaustion of the evaluation budget of the fuelled embedding. -/
inductive Err where
  | rte (msg : String)
  | panicked (msg : String)
  | fuel
  deriving DecidableEq, Repr

/-- A scope: `HashMap<String, Option<LazyResult>>` as an association list. -/
abbrev Scope := List (String × Option LazyResult)

/-- One function-table entry: `((input params, output params), body)`. -/
abbrev FuncEntry := (Option (List ASTNode) × Option (List ASTNode)) × List ASTNode

/-- A function table: `HashMap<String, FuncEntry>` as an association list. -/
abbrev FuncTable := List (String × FuncEntry)

/-- `HashMap::insert`: replace the binding of the key, or add it. -/
def mapInsert {α : Type} (m : List (String × α)) (k : String) (v : α) :
    List (String × α) :=
  match m with
  | [] => [(k, v)]
  | (k', v') :: rest =>
      if k' = k then (k, v) :: rest else (k', v') :: mapInsert rest k v

/-- `HashMap::get`. -/
def mapGet {α : Type} (m : List (String × α)) (k : String) : Option α :=
  match m with
  | [] => none
  | (k', v') :: rest => if k' = k then some v' else mapGet rest k

/-- `HashMap::contains_key`. -/
def containsKey {α : Type} (m : List (String × α)) (k : String) : Bool :=
  (mapGet m k).isSome

/-- `struct Executor`'s mutable state, plus the process standard output. -/
structure ExecState where
  current_scope : Scope
  scopes : List Scope
  functions : List FuncTable
  return_value : Option Value
  output : String
  deriving Repr

/-- `Executor::new`: one empty scope frame pushed, one empty function table. -/
def initState : ExecState :=
  { current_scope := [], scopes := [[]], functions := [[]],
    return_value := none, output := "" }

/-- The evaluation monad: state plus fatal outcomes.  On an error the state
reached so far (in particular the output emitted so far) is retained. -/
def M (α : Type) : Type := ExecState → ExecState × Except Err α

instance : Monad M where
  pure a := fun s => (s, .ok a)
  bind x f := fun s =>
    match x s with
    | (s', .ok a) => f a s'
    | (s', .error e) => (s', .error e)

/-- Raise a fatal outcome. -/
def throwErr {α : Type} (e : Err) : M α := fun s => (s, .error e)

/-- Lift a stateless fallible computation. -/
def liftEx {α : Type} (x : Except Err α) : M α := fun s => (s, x)

/-- Read the whole state. -/
def getS : M ExecState := fun s => (s, .ok s)

/-- Replace the whole state. -/
def setS (s' : ExecState) : M Unit := fun _ => (s', .ok ())

/-- `Executor::lazy2_value`.  The `Expression` arm is the source's
"Inconvertible lazy result" fatal diagnostic. -/
def lazy2_value : LazyResult → Except Err Value
  | .List val => .ok (.VList val)
  | .Null => .ok .VNone
  | .None => .ok .VNone
  | .Str val => .ok (.VStr val)
  | .Bool val => .ok (.VBool val)
  | .Float val => .ok (.VFloat val)
  | .Int val => .ok (.VInt val)
  | .Expression _ =>
      .error (.rte "RTE: Inconvertible lazy result. \nHint this may be an expresion conversion")

/-- `Executor::value2_lazy`.  Total on the sum model: the source's 127 and
invalid-discriminant arms have no counterpart value. -/
def value2_lazy : Value → LazyResult
  | .VInt i => .Int i
  | .VFloat q => .Float q
  | .VBool b => .Bool b
  | .VStr s => .Str s
  | .VNone => .None
  | .VList l => .List l

/-- Stand-in for the derived `Debug` text of a `LazyResult` (used only in the
unreachable wildcard arms of the operator tables; no settled claim depends on
its exact text). -/
def lazyDebug : LazyResult → String
  | .Null => "Null"
  | .Int _ => "Int"
  | .Float _ => "Float"
  | .Str _ => "Str"
  | .Bool _ => "Bool"
  | .List _ => "List"
  | .None => "None"
  | .Expression _ => "Expression"

/-- The `"+"` arm of `Executor::evaluate_binary_expression`: the full
(left tag, right tag) dispatch table, one Lean arm per source arm, with the
exact diagnostic texts.  `List.concat`/append mirror `Vec::push`/`extend`. -/
def addLazy : LazyResult → LazyResult → Except Err LazyResult
  | .Int ll, .Int lr => .ok (.Int (ll + lr))
  | .Int ll, .Float lr => .ok (.Float ((ll : Rat) + lr))
  | .Int _, .Bool _ => .error (.rte "RTE: No implementation for `Int + bool`")
  | .Int _, .Str _ => .error (.rte "RTE: No implementation for `Int + Str`")
  | .Int _, .None => .error (.rte "RTE: No implementation for `Int + None`")
  | .Int _, .List _ => .error (.rte "RTE: No implementation for `Int + Vector`")
  | .Int _, _ => .error (.rte "RTE: No implementation for `Int + Type`.\nMay be caused by int.")
  | .Float ll, .Int lr => .ok (.Float (ll + (lr : Rat)))
  | .Float ll, .Float lr => .ok (.Float (ll + lr))
  | .Float _, .Bool _ => .error (.rte "RTE: No implementation for `Float + bool`")
  | .Float _, .Str _ => .error (.rte "RTE: No implementation for `Float + Str`")
  | .Float _, .None => .error (.rte "RTE: No implementation for `Float + None`")
  | .Float _, .List _ => .error (.rte "RTE: No implementation for `Float + Vector`")
  | .Float _, _ => .error (.rte "RTE: No implementation for `Float + Type`.\nMay be caused by int.")
  | .Bool _, .Int _ => .error (.rte "RTE: No implementation for `bool + Int`")
  | .Bool _, .Float _ => .error (.rte "RTE: No implementation for `bool + Float`")
  | .Bool _, .Bool _ => .error (.rte "RTE: No implementation for `bool + bool`")
  | .Bool _, .Str _ => .error (.rte "RTE: No implementation for `bool + Str`")
  | .Bool _, .None => .error (.rte "RTE: No implementation for `bool + None`")
  | .Bool _, .List _ => .error (.rte "RTE: No implementation for `bool + Vector`")
  | .Bool _, _ => .error (.rte "RTE: No implementation for `bool + Type`.\nMay be caused by int.")
  | .Str _, .Int _ => .error (.rte "RTE: No implementation for `Str + Int`")
  | .Str _, .Float _ => .error (.rte "RTE: No implementation for `Str + Float`")
  | .Str _, .Bool _ => .error (.rte "RTE: No implementation for `Str + bool`")
  | .Str ll, .Str lr => .ok (.Str (ll ++ lr))
  | .Str _, .None => .error (.rte "RTE: No implementation for `Str + None`")
  | .Str _, .List _ => .error (.rte "RTE: No implementation for `Str + Vector`")
  | .Str _, _ => .error (.rte "RTE: No implementation for `Str + Type`.\nMay be caused by int.")
  | .None, .Int _ => .error (.rte "RTE: No implementation for `None + Int`")
  | .None, .Float _ => .error (.rte "RTE: No implementation for `None + Float`")
  | .None, .Bool _ => .error (.rte "RTE: No implementation for `None + bool`")
  | .None, .Str _ => .error (.rte "RTE: No implementation for `None + Str`")
  | .None, .None => .error (.rte "RTE: No implementation for `None + None`")
  | .None, .List _ => .error (.rte "RTE: No implementation for `None + Vector`")
  | .None, _ => .error (.rte "RTE: No implementation for `None + Type`.\nMay be caused by int.")
  | .List ll, .Int lr => .ok (.List (ll ++ [Value.VInt lr]))
  | .List ll, .Float lr => .ok (.List (ll ++ [Value.VFloat lr]))
  | .List ll, .Bool lr => .ok (.List (ll ++ [Value.VBool lr]))
  | .List ll, .Str lr => .ok (.List (ll ++ [Value.VStr lr]))
  | .List ll, .None => .ok (.List (ll ++ [Value.VNone]))
  | .List ll, .List lr => .ok (.List (ll ++ lr))
  | .List _, _ => .error (.rte "RTE: No implementation for `Vector + Type`.\nMay be caused by int.")
  | l, _ => .error (.rte ("RTE: No implemention for " ++ lazyDebug l ++ " + Type"))

/-- The `"-"` arm of `Executor::evaluate_binary_expression`.  Rust `i32`
subtraction is modelled as unbounded `Int` subtraction (see the header). -/
def subLazy : LazyResult → LazyResult → Except Err LazyResult
  | .Int ll, .Int lr => .ok (.Int (ll - lr))
  | .Int ll, .Float lr => .ok (.Float ((ll : Rat) - lr))
  | .Int _, .Bool _ => .error (.rte "RTE: No implementation for `Int - bool`")
  | .Int _, .Str _ => .error (.rte "RTE: No implementation for `Int - Str`")
  | .Int _, .None => .error (.rte "RTE: No implementation for `Int - None`")
  | .Int _, .List _ => .error (.rte "RTE: No implementation for `Int - Vector`")
  | .Int _, _ => .error (.rte "RTE: No implementation for `Int - Type`.\nMay be caused by int.")
  | .Float ll, .Int lr => .ok (.Float (ll - (lr : Rat)))
  | .Float ll, .Float lr => .ok (.Float (ll - lr))
  | .Float _, .Bool _ => .error (.rte "RTE: No implementation for `Float - bool`")
  | .Float _, .Str _ => .error (.rte "RTE: No implementation for `Float - Str`")
  | .Float _, .None => .error (.rte "RTE: No implementation for `Float - None`")
  | .Float _, .List _ => .error (.rte "RTE: No implementation for `Float - Vector`")
  | .Float _, _ => .error (.rte "RTE: No implementation for `Float - Type`.\nMay be caused by int.")
  | .Bool _, .Int _ => .error (.rte "RTE: No implementation for `bool - Int`")
  | .Bool _, .Float _ => .error (.rte "RTE: No implementation for `bool - Float`")
  | .Bool _, .Bool _ => .error (.rte "RTE: No implementation for `bool - bool`")
  | .Bool _, .Str _ => .error (.rte "RTE: No implementation for `bool - Str`")
  | .Bool _, .None => .error (.rte "RTE: No implementation for `bool - None`")
  | .Bool _, .List _ => .error (.rte "RTE: No implementation for `bool - Vector`")
  | .Bool _, _ => .error (.rte "RTE: No implementation for `bool - Type`.\nMay be caused by int.")
  | .Str _, .Int _ => .error (.rte "RTE: No implementation for `Str - Int`")
  | .Str _, .Float _ => .error (.rte "RTE: No implementation for `Str - Float`")
  | .Str _, .Bool _ => .error (.rte "RTE: No implementation for `Str - bool`")
  | .Str _, .Str _ => .error (.rte "RTE: No implementation for `Str - Str`")
  | .Str _, .None => .error (.rte "RTE: No implementation for `Str - None`")
  | .Str _, .List _ => .error (.rte "RTE: No implementation for `Str - Vector`")
  | .Str _, _ => .error (.rte "RTE: No implementation for `Str - Type`.\nMay be caused by int.")
  | .None, .Int _ => .error (.rte "RTE: No implementation for `None - Int`")
  | .None, .Float _ => .error (.rte "RTE: No implementation for `None - Float`")
  | .None, .Bool _ => .error (.rte "RTE: No implementation for `None - bool`")
  | .None, .Str _ => .error (.rte "RTE: No implementation for `None - Str`")
  | .None, .None => .error (.rte "RTE: No implementation for `None - None`")
  | .None, .List _ => .error (.rte "RTE: No implementation for `None - Vector`")
  | .None, _ => .error (.rte "RTE: No implementation for `None - Type`.\nMay be caused by int.")
  | .List _, .Int _ => .error (.rte "RTE: No implementation for `Vector - Int`")
  | .List _, .Float _ => .error (.rte "RTE: No implementation for `Vector - Float`")
  | .List _, .Bool _ => .error (.rte "RTE: No implementation for `Vector - Bool`")
  | .List _, .Str _ => .error (.rte "RTE: No implementation for `Vector - Str`")
  | .List _, .None => .error (.rte "RTE: No implementation for `Vector - None`")
  | .List _, .List _ => .error (.rte "RTE: No implementation for `Vector - Vector`")
  | .List _, _ => .error (.rte "RTE: No implementation for `Vector - Type`.\nMay be caused by int.")
  | l, _ => .error (.rte ("RTE: No implemention for " ++ lazyDebug l ++ " - Type"))

/-- The `"/"` arm of `Executor::evaluate_binary_expression`.  `Int.tdiv` is
Rust's truncating integer division; a zero right operand is the unguarded
Rust runtime panic, not an interpreter diagnostic.  (Rational division by
zero in the Float arms is not exercised by any settled claim.) -/
def divLazy : LazyResult → LazyResult → Except Err LazyResult
  | .Int ll, .Int lr =>
      if lr = 0 then .error (.panicked "attempt to divide by zero")
      else .ok (.Int (Int.tdiv ll lr))
  | .Int ll, .Float lr => .ok (.Float ((ll : Rat) / lr))
  | .Int _, .Bool _ => .error (.rte "RTE: No implementation for `Int / bool`")
  | .Int _, .Str _ => .error (.rte "RTE: No implementation for `Int / Str`")
  | .Int _, .None => .error (.rte "RTE: No implementation for `Int / None`")
  | .Int _, .List _ => .error (.rte "RTE: No implementation for `Int / Vector`")
  | .Int _, _ => .error (.rte "RTE: No implementation for `Int / Type`.\nMay be caused by int.")
  | .Float ll, .Int lr => .ok (.Float (ll / (lr : Rat)))
  | .Float ll, .Float lr => .ok (.Float (ll / lr))
  | .Float _, .Bool _ => .error (.rte "RTE: No implementation for `Float / bool`")
  | .Float _, .Str _ => .error (.rte "RTE: No implementation for `Float / Str`")
  | .Float _, .None => .error (.rte "RTE: No implementation for `Float / None`")
  | .Float _, .List _ => .error (.rte "RTE: No implementation for `Float / Vector`")
  | .Float _, _ => .error (.rte "RTE: No implementation for `Float / Type`.\nMay be caused by int.")
  | .Bool _, .Int _ => .error (.rte "RTE: No implementation for `bool / Int`")
  | .Bool _, .Float _ => .error (.rte "RTE: No implementation for `bool / Float`")
  | .Bool _, .Bool _ => .error (.rte "RTE: No implementation for `bool / bool`")
  | .Bool _, .Str _ => .error (.rte "RTE: No implementation for `bool / Str`")
  | .Bool _, .None => .error (.rte "RTE: No implementation for `bool / None`")
  | .Bool _, .List _ => .error (.rte "RTE: No implementation for `bool / Vector`")
  | .Bool _, _ => .error (.rte "RTE: No implementation for `bool / Type`.\nMay be caused by int.")
  | .Str _, .Int _ => .error (.rte "RTE: No implementation for `Str / Int`")
  | .Str _, .Float _ => .error (.rte "RTE: No implementation for `Str / Float`")
  | .Str _, .Bool _ => .error (.rte "RTE: No implementation for `Str / bool`")
  | .Str _, .Str _ => .error (.rte "RTE: No implementation for `Str / Str`")
  | .Str _, .None => .error (.rte "RTE: No implementation for `Str / None`")
  | .Str _, .List _ => .error (.rte "RTE: No implementation for `Str / Vector`")
  | .Str _, _ => .error (.rte "RTE: No implementation for `Str / Type`.\nMay be caused by int.")
  | .None, .Int _ => .error (.rte "RTE: No implementation for `None / Int`")
  | .None, .Float _ => .error (.rte "RTE: No implementation for `None / Float`")
  | .None, .Bool _ => .error (.rte "RTE: No implementation for `None / bool`")
  | .None, .Str _ => .error (.rte "RTE: No implementation for `None / Str`")
  | .None, .None => .error (.rte "RTE: No implementation for `None / None`")
  | .None, .List _ => .error (.rte "RTE: No implementation for `None / Vector`")
  | .None, _ => .error (.rte "RTE: No implementation for `None / Type`.\nMay be caused by int.")
  | .List _, .Int _ => .error (.rte "RTE: No implementation for `Vector / Int`")
  | .List _, .Float _ => .error (.rte "RTE: No implementation for `Vector / Float`")
  | .List _, .Bool _ => .error (.rte "RTE: No implementation for `Vector / Bool`")
  | .List _, .Str _ => .error (.rte "RTE: No implementation for `Vector / Str`")
  | .List _, .None => .error (.rte "RTE: No implementation for `Vector / None`")
  | .List _, .List _ => .error (.rte "RTE: No implementation for `Vector / Vector`")
  | .List _, _ => .error (.rte "RTE: No implementation for `Vector / Type`.\nMay be caused by int.")
  | l, _ => .error (.rte ("RTE: No implemention for " ++ lazyDebug l ++ " / Type"))

/-- The Rust inclusive range `lo..=hi` over `Int`, as the list it iterates. -/
def rustRangeIncl (lo hi : Int) : List Int :=
  if hi < lo then []
  else (List.range (hi - lo + 1).toNat).map (fun k => lo + Int.ofNat k)

/-- The string-repetition loop of the `"*"` arms:
`for _ in 0..=n-1 { result.push_str(&s) }`. -/
def strRepeat (n : Int) (s : String) : String :=
  (rustRangeIncl 0 (n - 1)).foldl (fun acc _ => acc ++ s) ""

/-- The `"*"` arm of `Executor::evaluate_binary_expression`. -/
def mulLazy : LazyResult → LazyResult → Except Err LazyResult
  | .Int ll, .Int lr => .ok (.Int (ll * lr))
  | .Int ll, .Float lr => .ok (.Float ((ll : Rat) * lr))
  | .Int _, .Bool _ => .error (.rte "RTE: No implementation for `Int * bool`")
  | .Int ll, .Str lr => .ok (.Str (strRepeat ll lr))
  | .Int _, .None => .error (.rte "RTE: No implementation for `Int * None`")
  | .Int _, .List _ => .error (.rte "RTE: No implementation for `Int * Vector`")
  | .Int _, _ => .error (.rte "RTE: No implementation for `Int * Type`.\nMay be caused by int.")
  | .Float ll, .Int lr => .ok (.Float (ll * (lr : Rat)))
  | .Float ll, .Float lr => .ok (.Float (ll * lr))
  | .Float _, .Bool _ => .error (.rte "RTE: No implementation for `Float * bool`")
  | .Float _, .Str _ => .error (.rte "RTE: No implementation for `Float * Str`")
  | .Float _, .None => .error (.rte "RTE: No implementation for `Float * None`")
  | .Float _, .List _ => .error (.rte "RTE: No implementation for `Float * Vector`")
  | .Float _, _ => .error (.rte "RTE: No implementation for `Float * Type`.\nMay be caused by int.")
  | .Bool _, .Int _ => .error (.rte "RTE: No implementation for `bool * Int`")
  | .Bool _, .Float _ => .error (.rte "RTE: No implementation for `bool * Float`")
  | .Bool _, .Bool _ => .error (.rte "RTE: No implementation for `bool * bool`")
  | .Bool _, .Str _ => .error (.rte "RTE: No implementation for `bool * Str`")
  | .Bool _, .None => .error (.rte "RTE: No implementation for `bool * None`")
  | .Bool _, .List _ => .error (.rte "RTE: No implementation for `bool * Vector`")
  | .Bool _, _ => .error (.rte "RTE: No implementation for `bool * Type`.\nMay be caused by int.")
  | .Str ll, .Int lr => .ok (.Str (strRepeat lr ll))
  | .Str _, .Float _ => .error (.rte "RTE: No implementation for `Str * Float`")
  | .Str _, .Bool _ => .error (.rte "RTE: No implementation for `Str * bool`")
  | .Str _, .Str _ => .error (.rte "RTE: No implementation for `Str * Str`")
  | .Str _, .None => .error (.rte "RTE: No implementation for `Str * None`")
  | .Str _, .List _ => .error (.rte "RTE: No implementation for `Str * Vector`")
  | .Str _, _ => .error (.rte "RTE: No implementation for `Str * Type`.\nMay be caused by int.")
  | .None, .Int _ => .error (.rte "RTE: No implementation for `None * Int`")
  | .None, .Float _ => .error (.rte "RTE: No implementation for `None * Float`")
  | .None, .Bool _ => .error (.rte "RTE: No implementation for `None * bool`")
  | .None, .Str _ => .error (.rte "RTE: No implementation for `None * Str`")
  | .None, .None => .error (.rte "RTE: No implementation for `None * None`")
  | .None, .List _ => .error (.rte "RTE: No implementation for `None * Vector`")
  | .None, _ => .error (.rte "RTE: No implementation for `None * Type`.\nMay be caused by int.")
  | .List _, .Int _ => .error (.rte "RTE: No implementation for `Vector * Int`")
  | .List _, .Float _ => .error (.rte "RTE: No implementation for `Vector * Float`")
  | .List _, .Bool _ => .error (.rte "RTE: No implementation for `Vector * Bool`")
  | .List _, .Str _ => .error (.rte "RTE: No implementation for `Vector * Str`")
  | .List _, .None => .error (.rte "RTE: No implementation for `Vector * None`")
  | .List _, .List _ => .error (.rte "RTE: No implementation for `Vector * Vector`")
  | .List _, _ => .error (.rte "RTE: No implementation for `Vector * Type`.\nMay be caused by int.")
  | l, _ => .error (.rte ("RTE: No implemention for " ++ lazyDebug l ++ " * Type"))

/-- The operator dispatch of `evaluate_binary_expression` after both operands
have been evaluated and converted by `value2_lazy`.  The wildcard is the
"(Int) Binary operator not Implemented" fatal diagnostic (`%`, `^`,
comparisons and `&`/`|` have no evaluator case). -/
def applyBinary (operation : String) (l r : LazyResult) : Except Err LazyResult :=
  if operation = "+" then addLazy l r
  else if operation = "-" then subLazy l r
  else if operation = "/" then divLazy l r
  else if operation = "*" then mulLazy l r
  else .error (.rte ("(Int) Binary operator not Implemented " ++ operation))

/-- Update the state. -/
def modifyS (f : ExecState → ExecState) : M Unit := fun s => (f s, .ok ())

/-- The text of the Rust `Option::unwrap` panic. -/
def unwrapPanicMsg : String := "called `Option::unwrap()` on a `None` value"

/-- The apostrophe character as a string, built numerically so that no quote
character appears inside a string literal of this file. -/
def sq : String := String.singleton (Char.ofNat 39)

/-- The arity diagnostic of `execute_func`, with its was/were and `..` forms. -/
def arityMsg (func_name : String) (p_len alen : Nat) : String :=
  let verb := if alen > 1 then "were" else "was"
  let p := if p_len > 0 then ".." else ""
  "RTE: Function " ++ sq ++ func_name ++ "(" ++ p ++ ")" ++ sq ++ " expects "
    ++ toString p_len ++ " arguments, but " ++ toString alen ++ " " ++ verb
    ++ " provided"

/-- Stand-in for the derived `Debug` text of an AST node (it appears only
inside diagnostics and in the default statement arm; no settled claim
depends on its exact text). -/
def astDebug : ASTNode → String
  | .Integer i => "Integer(" ++ toString i ++ ")"
  | .ID n => "ID(" ++ n ++ ")"
  | _ => "ASTNode"

/-- The canonical text of a `Value`, as reaching stdout through
`print`/`println`.  In the source, `Display::fmt` prints the text directly
as a side effect and writes nothing to the formatter, so the caller
concatenates empty strings; the pieces still reach stdout in argument
order, and the net output equals the concatenation modelled here.  The
Float and List texts are stand-ins (exact `f64` Display and the derived
Debug dump of a list are not reproduced; no settled claim prints either). -/
def valueToString : Value → String
  | .VInt i => toString i
  | .VFloat q => toString q.num ++ "/" ++ toString q.den
  | .VBool b => if b then "true" else "false"
  | .VStr s => s
  | .VNone => "None"
  | .VList _ => "[Value]"

/-- `BUILTIN_FUNCTIONS` of the source. -/
def BUILTIN_FUNCTIONS : List String := ["print", "println"]

/-- `Executor::print`: write to stdout. -/
def print (result : String) : M LazyResult := fun s =>
  ({ s with output := s.output ++ result }, .ok .Null)

/-- `Executor::println`: write to stdout with a trailing newline. -/
def println (result : String) : M LazyResult := fun s =>
  ({ s with output := s.output ++ result ++ "\n" }, .ok .Null)

/-- The scope-stack search of `Executor::get_variable_value`: the source
reverses the `scopes` Vec and takes the first frame containing the name
(most recently pushed first); with the head-is-top list model that is
front-to-back search.  Yields the stored binding, which may be the empty
binding of `let name;`. -/
def scopesFind : List Scope → String → Option (Option LazyResult)
  | [], _ => none
  | sc :: rest, n =>
      match mapGet sc n with
      | some v => some v
      | none => scopesFind rest n

/-- `Executor::get_variable_value`: current scope first, then the stacked
scopes from most recently pushed to least; an unknown name is the fatal
NameError diagnostic. -/
def get_variable_value (s : ExecState) (name : String) :
    Except Err (Option LazyResult) :=
  match mapGet s.current_scope name with
  | some v => .ok v
  | none =>
      match scopesFind s.scopes name with
      | some v => .ok v
      | none => .error (.rte ("RTE: Variable `" ++ name ++ "` not defined"))

/-- `Executor::var_declaration`: a literal initializer (integer, float,
bool, string, none) is bound eagerly; any other initializer is stored as the
unevaluated `Expression`; no initializer stores the empty binding.  The
binding goes into the current scope, overwriting any previous one. -/
def var_declaration (name : ASTNode) (value : Option ASTNode) : M LazyResult :=
  fun s =>
    let v : Option LazyResult :=
      match value with
      | some v =>
          some (match v with
            | .Integer i => .Int i
            | .Float q => .Float q
            | .Bool b => .Bool b
            | .Str t => .Str t
            | .None => .None
            | e => .Expression e)
      | none => none
    match name with
    | .ID n => ({ s with current_scope := mapInsert s.current_scope n v }, .ok .Null)
    | _ => (s, .error (.rte "Invalid variable name"))

/-- `Executor::func_declaration`: insert into the top function table
(silently replacing a previous entry); when the table stack is empty the
`if let` fails and the declaration is silently skipped. -/
def func_declaration (name : ASTNode)
    (parameters : Option (List ASTNode) × Option (List ASTNode))
    (block : List ASTNode) : M LazyResult := fun s =>
  match s.functions with
  | [] => (s, .ok .Null)
  | funcs :: rest =>
      match name with
      | .ID n =>
          ({ s with functions := mapInsert funcs n (parameters, block) :: rest },
           .ok .Null)
      | _ => (s, .error (.rte "Invalid function name"))

/-- `Executor::clean_scope`: pop the scope stack into `current_scope`
(an empty stack yields a fresh empty map), then pop once more. -/
def clean_scope (s : ExecState) : ExecState :=
  match s.scopes with
  | [] => { s with current_scope := [], scopes := [] }
  | top :: rest => { s with current_scope := top, scopes := rest.tail }

/-- `Executor::evaluate_unary_expression`.  None of its arms re-enters the
evaluator: `!` and `-` pattern-match the unevaluated operand AST node;
`++`/`--` read and write the variable binding directly.  `!` on an integer
literal is Rust bitwise complement, `-v - 1`. -/
def evaluate_unary_expression (operator : String) (operand : ASTNode) : M Value :=
  fun s =>
  if operator = "!" then
    match operand with
    | .None => (s, .ok (.VBool true))
    | .Bool value => (s, .ok (.VBool (!value)))
    | .Integer value => (s, .ok (.VInt (-value - 1)))
    | .Float _ => (s, .error (.rte "RTE: Cannot apply unary operator `!` to type Float"))
    | .Str _ => (s, .error (.rte "RTE: Cannot apply unary operator `!` to type Str"))
    | .ExpressionList list =>
        if list.length > 0 then (s, .ok (.VBool false)) else (s, .ok (.VBool true))
    | op => (s, .error (.rte ("(Int) Unary operator `!` not implemented for " ++ astDebug op)))
  else if operator = "-" then
    match operand with
    | .None => (s, .error (.rte "RTE: Cannot apply unary operator `-` to type None."))
    | .Bool _ => (s, .error (.rte "RTE: Cannot apply unary operator `-` to type Bool "))
    | .Integer value => (s, .ok (.VInt (-value)))
    | .Float _ => (s, .error (.rte "RTE: Cannot apply unary operator `-` to type Float"))
    | .Str _ => (s, .error (.rte "RTE: Cannot apply unary operator `-` to type Str"))
    | .ExpressionList _ => (s, .error (.rte "RTE: Cannot apply unary operator `-` to type Vector"))
    | op => (s, .error (.rte ("(Int) Unary operator `-` not implemented for " ++ astDebug op)))
  else if operator = "++" then
    match operand with
    | .ID name =>
        match get_variable_value s name with
        | .error e => (s, .error e)
        | .ok none => (s, .error (.panicked unwrapPanicMsg))
        | .ok (some lz) =>
            match lz with
            | .Int val =>
                ({ s with current_scope :=
                    mapInsert s.current_scope name (some (.Int (val + 1))) },
                 .ok (.VInt (val + 1)))
            | .Float val =>
                ({ s with current_scope :=
                    mapInsert s.current_scope name (some (.Float (val + 1))) },
                 .ok (.VFloat (val + 1)))
            | _ => (s, .error (.rte "RTE: Wrong use of `++`"))
    | _ => (s, .error (.rte "RTE: Wrong use of `++`"))
  else if operator = "--" then
    match operand with
    | .ID name =>
        match get_variable_value s name with
        | .error e => (s, .error e)
        | .ok (some (.Int val)) =>
            ({ s with current_scope :=
                mapInsert s.current_scope name (some (.Int (val - 1))) },
             .ok (.VInt (val - 1)))
        | .ok (some (.Float val)) =>
            ({ s with current_scope :=
                mapInsert s.current_scope name (some (.Float (val - 1))) },
             .ok (.VFloat (val - 1)))
        | .ok _ => (s, .error (.rte "RTE: Wrong use of `--`"))
    | _ => (s, .error (.rte "RTE: Wrong use of `--`"))
  else
    (s, .error (.rte ("(Int) Unary operator not Implemented " ++ astDebug operand)))

mutual

/-- `Executor::evaluate`, fuelled: literal forms build values directly; an
identifier is looked up and, when deferred, re-evaluated now against the
current state; calls, binary and unary operations dispatch to their
evaluators; any other node is the "Invalid expression" fatal diagnostic. -/
def evaluate : Nat → ASTNode → M Value
  | 0, _ => throwErr .fuel
  | n + 1, expression =>
      match expression with
      | .Integer value => pure (.VInt value)
      | .Float value => pure (.VFloat value)
      | .Bool value => pure (.VBool value)
      | .Str value => pure (.VStr value)
      | .None => pure .VNone
      | .ExpressionList list => do
          let value ← evalList n list
          pure (.VList value)
      | .ID name => fun s =>
          match get_variable_value s name with
          | .error e => (s, .error e)
          | .ok none => (s, .error (.panicked unwrapPanicMsg))
          | .ok (some (.Expression expr)) => evaluate n expr s
          | .ok (some rn_lazy_val) => (s, lazy2_value rn_lazy_val)
      | .FunctionCall name args => do
          let var ← func_call n name args
          liftEx (lazy2_value var)
      | .BinaryOperation left operation right =>
          evaluate_binary_expression n left operation right
      | .UnaryOperation operand operator =>
          evaluate_unary_expression operator operand
      | e => throwErr (.rte ("Invalid expression at " ++ astDebug e))

/-- The element-wise evaluation of an `ExpressionList` (the source's
`map` over the list, left to right). -/
def evalList : Nat → List ASTNode → M (List Value)
  | 0, _ => throwErr .fuel
  | _ + 1, [] => pure []
  | n + 1, x :: xs => do
      let v ← evaluate n x
      let rest ← evalList n xs
      pure (v :: rest)

/-- `Executor::evaluate_binary_expression`: evaluate the left then the right
operand, convert both through `value2_lazy`, dispatch on the operator and
convert the result back through `lazy2_value`. -/
def evaluate_binary_expression : Nat → ASTNode → String → ASTNode → M Value
  | 0, _, _, _ => throwErr .fuel
  | n + 1, left, operation, right => do
      let value ← evaluate n left
      let lazy_left_value := value2_lazy value
      let value2 ← evaluate n right
      let lazy_right_value := value2_lazy value2
      let res ← liftEx (applyBinary operation lazy_left_value lazy_right_value)
      liftEx (lazy2_value res)

/-- `Executor::func_call`: the callee must be a bare identifier; `print` and
`println` evaluate and stringify every argument and write to stdout; any
other name is dispatched to `execute_func`. -/
def func_call : Nat → ASTNode → List ASTNode → M LazyResult
  | 0, _, _ => throwErr .fuel
  | n + 1, name, args =>
      match name with
      | .ID func_name =>
          if BUILTIN_FUNCTIONS.contains func_name then do
            let result ← evalArgsConcat n args ""
            if func_name = "print" then print result else println result
          else
            execute_func n func_name args
      | _ => throwErr (.rte "Invalid function name")

/-- The argument loop of the `print`/`println` arm of `func_call`:
evaluate each argument and concatenate its canonical text.  (In the source
each argument's text reaches stdout already during stringification, because
`Display::fmt` prints as a side effect; concatenating here and writing once
at the end differs only when a later argument's evaluation aborts after an
earlier argument was stringified, a path no settled claim exercises.) -/
def evalArgsConcat : Nat → List ASTNode → String → M String
  | 0, _, _ => throwErr .fuel
  | _ + 1, [], acc => pure acc
  | n + 1, arg :: rest, acc => do
      let v ← evaluate n arg
      evalArgsConcat n rest (acc ++ valueToString v)

/-- `Executor::execute_func`: pop the top function table (the source never
pushes it back on the successful path), look up the callee, check the arity,
evaluate the arguments in the caller's state into a fresh scope, push a clone
of that scope and make it current, run the body, and on a set `return_value`
convert it to the result, clear it and run `clean_scope`.  A body that sets
no `return_value` yields `Null` and skips the cleanup entirely. -/
def execute_func : Nat → String → List ASTNode → M LazyResult
  | 0, _, _ => throwErr .fuel
  | n + 1, func_name, args => fun s =>
      match s.functions with
      | [] =>
          (s, .error (.rte "(Int)Functions are not found.\nIt may be caused by you or me. \nRestart the code(Int)"))
      | funcs :: restFuncs =>
          match mapGet funcs func_name with
          | none =>
              (s, .error (.rte ("RTE: Function `" ++ func_name ++ "` not found")))
          | some (params, block) =>
              let s1 : ExecState := { s with functions := restFuncs }
              let formal_params := params.1.getD []
              let p_len := formal_params.length
              if p_len ≠ args.length then
                (s1, .error (.rte (arityMsg func_name p_len args.length)))
              else
                match bindParams n (formal_params.zip args) [] s1 with
                | (s2, .error e) => (s2, .error e)
                | (s2, .ok new_scope) =>
                    let s3 : ExecState :=
                      { s2 with scopes := new_scope :: s2.scopes,
                                current_scope := new_scope }
                    match execute_block n block s3 with
                    | (s4, .error e) => (s4, .error e)
                    | (s4, .ok func_rn) =>
                        if func_rn then
                          match s4.return_value with
                          | some rv =>
                              let lazy_rn := value2_lazy rv
                              (clean_scope { s4 with return_value := none },
                               .ok lazy_rn)
                          | none => (s4, .error (.panicked unwrapPanicMsg))
                        else
                          (s4, .ok .Null)

/-- The parameter-binding loop of `execute_func`: bind each formal parameter
name to the eagerly evaluated argument; a formal parameter that is not a bare
identifier is skipped (`continue`) together with its argument. -/
def bindParams : Nat → List (ASTNode × ASTNode) → Scope → M Scope
  | 0, _, _ => throwErr .fuel
  | _ + 1, [], acc => pure acc
  | n + 1, (p, a) :: rest, acc =>
      match p with
      | .ID pname => do
          let value ← evaluate n a
          let lazy_argument := value2_lazy value
          bindParams n rest (mapInsert acc pname (some lazy_argument))
      | _ => bindParams n rest acc

/-- `Executor::execute_block`: run the statements in order, stopping with
`true` as soon as `return_value` is set after a statement; `false` when the
statements are exhausted. -/
def execute_block : Nat → List ASTNode → M Bool
  | 0, _ => throwErr .fuel
  | _ + 1, [] => pure false
  | n + 1, statement :: rest => do
      let _ ← execute_statement n statement
      let s ← getS
      if s.return_value.isSome then pure true
      else execute_block n rest

/-- `Executor::execute_statement`: variable declaration, function
declaration, call-as-statement and return are implemented; every other
statement kind is debug-printed to stdout and skipped. -/
def execute_statement : Nat → ASTNode → M LazyResult
  | 0, _ => throwErr .fuel
  | n + 1, statement =>
      match statement with
      | .Var name value => var_declaration name value
      | .Function name parameters block => func_declaration name parameters block
      | .FunctionCall name args => func_call n name args
      | .Return list => rn_statement n list
      | st => fun s =>
          ({ s with output := s.output ++ ">> " ++ astDebug st ++ "\n" }, .ok .Null)

/-- `Executor::rn_statement`: zero expressions set a None-valued
`return_value`; one sets its evaluated value; several bundle their values
into a list; the statement itself yields `Null`. -/
def rn_statement : Nat → List ASTNode → M LazyResult
  | 0, _ => throwErr .fuel
  | n + 1, list =>
      match list with
      | [] => fun s => ({ s with return_value := some .VNone }, .ok .Null)
      | [expression] => do
          let value ← evaluate n expression
          modifyS (fun s => { s with return_value := some value })
          pure .Null
      | _ => do
          let vals ← evalList n list
          modifyS (fun s => { s with return_value := some (.VList vals) })
          pure .Null

end

/-- `Executor::execute`: run every top-level statement in order; nothing
checks `return_value` at this level. -/
def execute : Nat → List ASTNode → M Unit
  | _, [] => pure ()
  | fuel, statement :: rest => do
      let _ ← execute_statement fuel statement
      execute fuel rest

/-- Lex-parse-execute is out of scope here: run an already-parsed program
from the initial executor state. -/
def runProgram (fuel : Nat) (ast : List ASTNode) : ExecState × Except Err Unit :=
  execute fuel ast initState

/-- Rust `char::is_numeric`, restricted to ASCII digits (no settled claim
involves non-ASCII numeric characters). -/
def isNumericChar (c : Char) : Bool := c.isDigit

/-- Rust `char::is_alphabetic`, restricted to ASCII (same remark). -/
def isAlphaChar (c : Char) : Bool := c.isAlpha

/-- The quote characters, built numerically (39 is the single quote). -/
def singleQuote : Char := Char.ofNat 39

/-- `const KEYWORDS` of the source. -/
def KEYWORDS : List String :=
  ["let", "fn", "for", "while", "if", "else", "match", "True", "False",
   "None", "class", "parent", "rn", "break", "continue", "use", "as"]

/-- The scan loop of `Lexer::get_number`: consume characters while the
current one is numeric or a dot, but break on a dot when one dot has already
been consumed, leaving that second dot unconsumed.  The current character of
the Rust scanner is the head of the list; the result is (consumed text,
remaining characters). -/
def get_number_chars (cs : List Char) (dot_count : Nat) : List Char × List Char :=
  match cs with
  | [] => ([], [])
  | c :: rest =>
      if isNumericChar c || c == '.' then
        if c == '.' then
          if dot_count == 1 then ([], c :: rest)
          else
            let (t, r) := get_number_chars rest (dot_count + 1)
            (c :: t, r)
        else
          let (t, r) := get_number_chars rest dot_count
          (c :: t, r)
      else ([], c :: rest)

/-- `Lexer::get_number`: an `INT` token when no dot was consumed, else a
`FLOAT` token. -/
def get_number (cs : List Char) : Token × List Char :=
  let (t, r) := get_number_chars cs 0
  (if t.count '.' = 0 then ⟨.INT, String.mk t⟩ else ⟨.FLOAT, String.mk t⟩, r)

/-- The scan loop of `Lexer::get_identifier`. -/
def get_identifier_chars (cs : List Char) : List Char × List Char :=
  match cs with
  | [] => ([], [])
  | c :: rest =>
      if c.isAlphanum || c == '_' then
        let (t, r) := get_identifier_chars rest
        (c :: t, r)
      else ([], c :: rest)

/-- `Lexer::get_identifier`: a `KEYWORD` token for the fixed keyword set,
else an `ID` token. -/
def get_identifier (cs : List Char) : Token × List Char :=
  let (t, r) := get_identifier_chars cs
  (if KEYWORDS.contains (String.mk t) then ⟨.KEYWORD, String.mk t⟩
   else ⟨.ID, String.mk t⟩, r)

/-- The escape table of `Lexer::get_string`: `n`, `t`, the double quote and
the backslash map to their escapes; any other escaped character passes
through unchanged (the `None` arm of the HashMap lookup). -/
def escape_char (c : Char) : Char :=
  if c == 'n' then '\n'
  else if c == 't' then '\t'
  else if c == '"' then '"'
  else if c == '\\' then '\\'
  else c

/-- The scan loop of `Lexer::get_string` after the opening quote: consume
until the matching unescaped quote (also consumed) or the end of line. -/
def get_string_chars (used : Char) (escape : Bool) (cs : List Char) :
    List Char × List Char :=
  match cs with
  | [] => ([], [])
  | c :: rest =>
      if c == used && !escape then ([], rest)
      else if escape then
        let (t, r) := get_string_chars used false rest
        (escape_char c :: t, r)
      else if c == '\\' then
        get_string_chars used true rest
      else
        let (t, r) := get_string_chars used false rest
        (c :: t, r)

/-- `Lexer::get_string` (the opening quote `used` already consumed). -/
def get_string (used : Char) (cs : List Char) : Token × List Char :=
  let (t, r) := get_string_chars used false cs
  (⟨.STRING, String.mk t⟩, r)

/-- One line of `Lexer::lex`, fuelled (each step consumes at least one
character, so `length + 1` fuel always suffices).  The branch order and the
greedy two-character lookahead follow the source; the unknown-character
diagnostic text is a stand-in (no settled claim reaches it). -/
def lexLine : Nat → List Char → Except Err (List Token)
  | 0, _ => .error .fuel
  | _ + 1, [] => .ok []
  | n + 1, c :: rest =>
      if isAlphaChar c then
        let (t, r) := get_identifier (c :: rest)
        (lexLine n r).map (t :: ·)
      else if c == '_' then
        let (t, r) := get_identifier (c :: rest)
        (lexLine n r).map (t :: ·)
      else if isNumericChar c then
        let (t, r) := get_number (c :: rest)
        (lexLine n r).map (t :: ·)
      else if c == '#' then .ok []
      else if c == singleQuote || c == '"' then
        let (t, r) := get_string c rest
        (lexLine n r).map (t :: ·)
      else if c.isWhitespace then lexLine n rest
      else if c == '(' then (lexLine n rest).map (⟨.LPAREN, "("⟩ :: ·)
      else if c == ')' then (lexLine n rest).map (⟨.RPAREN, ")"⟩ :: ·)
      else if c == ',' then (lexLine n rest).map (⟨.COMMA, ","⟩ :: ·)
      else if c == ':' then (lexLine n rest).map (⟨.COLON, ":"⟩ :: ·)
      else if c == ';' then (lexLine n rest).map (⟨.SEMI, ";"⟩ :: ·)
      else if c == '>' then
        if rest.head? == some '=' then
          (lexLine n rest.tail).map (⟨.GTE, ">="⟩ :: ·)
        else (lexLine n rest).map (⟨.GT, ">"⟩ :: ·)
      else if c == '<' then
        if rest.head? == some '=' then
          (lexLine n rest.tail).map (⟨.LTE, "<="⟩ :: ·)
        else (lexLine n rest).map (⟨.LT, "<"⟩ :: ·)
      else if c == '[' then (lexLine n rest).map (⟨.LBRACKET, "["⟩ :: ·)
      else if c == ']' then (lexLine n rest).map (⟨.RBRACKET, "]"⟩ :: ·)
      else if c == '{' then (lexLine n rest).map (⟨.LBRACE, "\x7b"⟩ :: ·)
      else if c == '}' then (lexLine n rest).map (⟨.RBRACE, "\x7d"⟩ :: ·)
      else if c == '.' then
        if rest.head? == some '.' then
          (lexLine n rest.tail).map (⟨.DEFAULT, ".."⟩ :: ·)
        else (lexLine n rest).map (⟨.DOT, "."⟩ :: ·)
      else if c == '+' then
        if rest.head? == some '+' then
          (lexLine n rest.tail).map (⟨.INCREMENT, "++"⟩ :: ·)
        else (lexLine n rest).map (⟨.PLUS, "+"⟩ :: ·)
      else if c == '-' then
        if rest.head? == some '-' then
          (lexLine n rest.tail).map (⟨.DECREMENT, "--"⟩ :: ·)
        else (lexLine n rest).map (⟨.MINUS, "-"⟩ :: ·)
      else if c == '*' then (lexLine n rest).map (⟨.ASTERISK, "*"⟩ :: ·)
      else if c == '^' then (lexLine n rest).map (⟨.CARET, "^"⟩ :: ·)
      else if c == '/' then (lexLine n rest).map (⟨.DIVISION, "/"⟩ :: ·)
      else if c == '%' then (lexLine n rest).map (⟨.MODULUS, "%"⟩ :: ·)
      else if c == '=' then
        if rest.head? == some '=' then
          (lexLine n rest.tail).map (⟨.EQ, "=="⟩ :: ·)
        else if rest.head? == some '>' then
          (lexLine n rest.tail).map (⟨.ARROW, "=>"⟩ :: ·)
        else (lexLine n rest).map (⟨.ASSIGN, "="⟩ :: ·)
      else if c == '!' then
        if rest.head? == some '=' then
          (lexLine n rest.tail).map (⟨.NE, "!="⟩ :: ·)
        else (lexLine n rest).map (⟨.NEGATE, "!"⟩ :: ·)
      else if c == '&' then (lexLine n rest).map (⟨.AND, "&"⟩ :: ·)
      else if c == '|' then (lexLine n rest).map (⟨.OR, "|"⟩ :: ·)
      else .error (.rte ("SyntaxError: Unknown Character " ++ String.singleton c))

/-- Strip the carriage return preceding a line feed (the accumulator is the
line read so far, in reverse). -/
def dropCR (acc : List Char) : List Char :=
  match acc with
  | c :: r => if c = '\x0d' then r else acc
  | [] => []

/-- The splitting loop of Rust `str::lines` over the characters. -/
def rustLinesAux : List Char → List Char → List String
  | [], acc => [String.mk acc.reverse]
  | c :: rest, acc =>
      if c = '\n' then String.mk (dropCR acc).reverse :: rustLinesAux rest []
      else rustLinesAux rest (c :: acc)

/-- Rust `str::lines`: split at `\n` or `\x0d\n`, the final line ending
optional (a terminal newline produces no empty final line). -/
def rustLines (code : String) : List String :=
  let parts := rustLinesAux code.data []
  if parts.getLast? = some "" then parts.dropLast else parts

/-- The per-line loop of `Lexer::lex`. -/
def lexAll : List String → Except Err (List Token)
  | [] => .ok []
  | line :: rest => do
      let ts ← lexLine (line.length + 1) line.data
      let more ← lexAll rest
      .ok (ts ++ more)

/-- `Lexer::lex`: all lines in order, then the terminating `EOF` token. -/
def lex (code : String) : Except Err (List Token) :=
  (lexAll (rustLines code)).map (· ++ [⟨.EOF, "EOF"⟩])

/-! ## Claim-level definitions -/

/-- Binary `+` on two already-evaluated operand values: the conversion
sandwich of `evaluate_binary_expression` around the `"+"` dispatch arm. -/
def addValues (a b : Value) : Except Err Value :=
  match addLazy (value2_lazy a) (value2_lazy b) with
  | .ok r => lazy2_value r
  | .error e => .error e

/-- Binary `*` on two already-evaluated operand values. -/
def mulValues (a b : Value) : Except Err Value :=
  match mulLazy (value2_lazy a) (value2_lazy b) with
  | .ok r => lazy2_value r
  | .error e => .error e

/-- The type tag of a value as the `+` diagnostics spell it (claim-shaped:
used to state that the TypeError message names the exact offending pair). -/
def plusTag : Value → String
  | .VInt _ => "Int"
  | .VFloat _ => "Float"
  | .VBool _ => "bool"
  | .VStr _ => "Str"
  | .VNone => "None"
  | .VList _ => "Vector"

/-- The `+` policy exactly as the claim words it: Int+Int is Int; any
numeric pair with a Float is Float with the Int promoted; Str+Str
concatenates; List+List extends element-wise (flattening); List+X appends X
as one new element; every other pairing is a fatal TypeError naming the
exact offending pair.  Claim-shaped, to be compared with the source-derived
`addValues`. -/
def addSpecC5 : Value → Value → Except Err Value
  | .VInt i, .VInt j => .ok (.VInt (i + j))
  | .VInt i, .VFloat q => .ok (.VFloat ((i : Rat) + q))
  | .VFloat q, .VInt j => .ok (.VFloat (q + (j : Rat)))
  | .VFloat p, .VFloat q => .ok (.VFloat (p + q))
  | .VStr s, .VStr t => .ok (.VStr (s ++ t))
  | .VList l, .VList r => .ok (.VList (l ++ r))
  | .VList l, x => .ok (.VList (l ++ [x]))
  | a, b =>
      .error (.rte ("RTE: No implementation for `" ++ plusTag a ++ " + "
        ++ plusTag b ++ "`"))

/-- `s` repeated exactly `k` times (claim-shaped). -/
def repeatStr (s : String) : Nat → String
  | 0 => ""
  | k + 1 => s ++ repeatStr s k

/-- A numeric (Int or Float) value. -/
def isNumericValue : Value → Bool
  | .VInt _ => true
  | .VFloat _ => true
  | _ => false

/-- The pairings for which the claim says `*` is defined. -/
def mulDefined : Value → Value → Bool
  | .VInt _, .VStr _ => true
  | .VStr _, .VInt _ => true
  | a, b => isNumericValue a && isNumericValue b

/-- The C1 program: `let x = 1; fn f() { rn 5; } f(); println(x);`. -/
def progC1 : List ASTNode :=
  [.Var (.ID "x") (some (.Integer 1)),
   .Function (.ID "f") (none, none) [.Return [.Integer 5]],
   .FunctionCall (.ID "f") [],
   .FunctionCall (.ID "println") [.ID "x"]]

/-- The state of `progC1` just before the call `f()`. -/
def stateC1 : ExecState := (execute 20 (progC1.take 2) initState).1

/-- The C2 program: `println(5 / 0);`. -/
def progC2 : List ASTNode :=
  [.FunctionCall (.ID "println") [.BinaryOperation (.Integer 5) "/" (.Integer 0)]]

/-- A literal initializer in the sense of `var_declaration` (integer, float,
bool, string, none). -/
def isLiteralNode : ASTNode → Bool
  | .Integer _ => true
  | .Float _ => true
  | .Bool _ => true
  | .Str _ => true
  | .None => true
  | _ => false

/-- The deferred initializer of the C3 example: `a + 1`. -/
def exprC3 : ASTNode := .BinaryOperation (.ID "a") "+" (.Integer 1)

/-- The state after `let a = 1; let b = a + 1;`. -/
def stateC3 : ExecState :=
  (execute 10 [.Var (.ID "a") (some (.Integer 1)),
               .Var (.ID "b") (some exprC3)] initState).1

/-- `stateC3` after the re-declaration `let a = 5;`. -/
def stateC3' : ExecState :=
  (execute 10 [.Var (.ID "a") (some (.Integer 5))] stateC3).1

/-- The C4 consumption program: `rn 5;` at top level, then a function whose
body is `let x = 1; println("B");`, then a call of it. -/
def progC4 : List ASTNode :=
  [.Return [.Integer 5],
   .Function (.ID "f") (none, none)
     [.Var (.ID "x") (some (.Integer 1)),
      .FunctionCall (.ID "println") [.Str "B"]],
   .FunctionCall (.ID "f") []]

/-- The simple C4 continuation program: `rn 5; println("A");`. -/
def progC4a : List ASTNode :=
  [.Return [.Integer 5], .FunctionCall (.ID "println") [.Str "A"]]

/-- The state of `progC4` just before the call `f()`. -/
def stateC4 : ExecState := (execute 20 (progC4.take 2) initState).1

/-- The C8 witness state: the current scope is empty and `i ↦ 0` lives in an
enclosing frame. -/
def stateC8 : ExecState :=
  { current_scope := [], scopes := [[("i", some (.Int 0))]], functions := [[]],
    return_value := none, output := "" }

/-- The state after `let a;`: the name is bound to the empty binding. -/
def stateC9 : ExecState := (execute 10 [.Var (.ID "a") none] initState).1

/-- The self-referential initializer of C10: `a + 1` for `let a = a + 1;`. -/
def exprC10 : ASTNode := .BinaryOperation (.ID "a") "+" (.Integer 1)

/-- The state after `let a = a + 1;`. -/
def stateC10 : ExecState :=
  (execute 10 [.Var (.ID "a") (some exprC10)] initState).1

/-! ## Theorems -/

/-- Claim C5: for every pair of evaluated operand values, binary `+` follows
exactly the claimed policy `addSpecC5`: Int+Int yields Int; Int/Float mixes
yield Float with the Int promoted; Str+Str concatenates; List+List flattens;
List+X appends X as a single element; every other pairing is the fatal
TypeError whose message names the exact offending pair. -/
theorem plus_dispatch_table : ∀ a b : Value, addValues a b = addSpecC5 a b := by
  intro a b
  cases a <;> cases b <;> rfl

theorem rustRangeIncl_length (lo hi : Int) :
    (rustRangeIncl lo hi).length = (hi - lo + 1).toNat := by
  unfold rustRangeIncl
  split
  · rename_i h
    have : (hi - lo + 1).toNat = 0 := by omega
    simp [this]
  · rw [List.length_map, List.length_range]

theorem foldl_append_const (s : String) :
    ∀ {α : Type} (l : List α) (acc : String),
      l.foldl (fun a _ => a ++ s) acc = acc ++ repeatStr s l.length := by
  intro α l
  induction l with
  | nil => intro acc; simp [repeatStr, String.append_empty]
  | cons x xs ih =>
      intro acc
      have : repeatStr s (xs.length + 1) = s ++ repeatStr s xs.length := rfl
      calc (x :: xs).foldl (fun a _ => a ++ s) acc
          = xs.foldl (fun a _ => a ++ s) (acc ++ s) := rfl
        _ = (acc ++ s) ++ repeatStr s xs.length := ih (acc ++ s)
        _ = acc ++ (s ++ repeatStr s xs.length) := String.append_assoc acc s _
        _ = acc ++ repeatStr s ((x :: xs).length) := by
              simp only [List.length_cons, this]

/-- The repetition loop of the `*` arms yields `s` repeated `n.toNat`
times: `n` times for `n ≥ 1`, zero times for `n ≤ 0` (the inclusive range
`0..=n-1` is then empty). -/
theorem strRepeat_eq (n : Int) (s : String) :
    strRepeat n s = repeatStr s n.toNat := by
  unfold strRepeat
  rw [foldl_append_const, String.empty_append, rustRangeIncl_length]
  congr 1
  omega

/-- Claim C6: `*` with one Integer `n` and one String `s`, in either order,
yields `s` repeated exactly `n` times for `n ≥ 1` and the empty string for
`n ≤ 0` (the loop's range `0..=n-1` is then empty); Float*Str in either
order and every other non-numeric pairing of `*` is a fatal TypeError. -/
theorem star_int_string_repeat :
    (∀ (n : Int) (s : String), 1 ≤ n →
        mulValues (.VInt n) (.VStr s) = .ok (.VStr (repeatStr s n.toNat))
          ∧ 1 ≤ n.toNat)
  ∧ (∀ (n : Int) (s : String), n ≤ 0 →
        mulValues (.VInt n) (.VStr s) = .ok (.VStr ""))
  ∧ (∀ (n : Int) (s : String),
        mulValues (.VStr s) (.VInt n) = mulValues (.VInt n) (.VStr s))
  ∧ (∀ (q : Rat) (s : String),
        mulValues (.VFloat q) (.VStr s)
            = .error (.rte "RTE: No implementation for `Float * Str`")
          ∧ mulValues (.VStr s) (.VFloat q)
            = .error (.rte "RTE: No implementation for `Str * Float`"))
  ∧ (∀ a b : Value, mulDefined a b = false →
        ∃ msg, mulValues a b = .error (.rte msg)) := by
  refine ⟨?_, ?_, ?_, ?_, ?_⟩
  · intro n s hn
    constructor
    · show Except.ok (Value.VStr (strRepeat n s)) = _
      rw [strRepeat_eq]
    · omega
  · intro n s hn
    show Except.ok (Value.VStr (strRepeat n s)) = _
    rw [strRepeat_eq]
    have : n.toNat = 0 := by omega
    rw [this]
    rfl
  · intro n s; rfl
  · intro q s; exact ⟨rfl, rfl⟩
  · intro a b h
    cases a <;> cases b <;>
      first
        | exact ⟨_, rfl⟩
        | simp [mulDefined, isNumericValue] at h

/-- Witness for C6 at `n = 3`, `s = "x"` and `n = -2`. -/
theorem star_int_string_repeat_witness :
    mulValues (.VInt 3) (.VStr "x") = .ok (.VStr "xxx")
      ∧ mulValues (.VInt (-2)) (.VStr "x") = .ok (.VStr "") := by
  constructor
  · have h := (star_int_string_repeat.1 3 "x" (by norm_num)).1
    rw [h]; rfl
  · exact star_int_string_repeat.2.1 (-2) "x" (by norm_num)

theorem get_number_chars_spec :
    ∀ (cs : List Char) (dc : Nat), dc ≤ 1 →
      (get_number_chars cs dc).1 ++ (get_number_chars cs dc).2 = cs
    ∧ (get_number_chars cs dc).1.count '.' + dc ≤ 1
    ∧ (∀ c ∈ (get_number_chars cs dc).1, isNumericChar c = true ∨ c = '.')
    ∧ (∀ c' r', (get_number_chars cs dc).2 = c' :: r' →
         (isNumericChar c' || c' == '.') = true →
         c' = '.' ∧ (get_number_chars cs dc).1.count '.' + dc = 1) := by
  intro cs
  induction cs with
  | nil =>
      intro dc hdc
      simpa [get_number_chars] using hdc
  | cons c rest ih =>
      intro dc hdc
      by_cases h1 : (isNumericChar c || c == '.') = true
      · by_cases h2 : c = '.'
        · subst h2
          by_cases h3 : dc = 1
          · subst h3
            simp [get_number_chars, h1]
          · have hdc0 : dc = 0 := by omega
            subst hdc0
            have ihr := ih 1 (by omega)
            simp only [get_number_chars, h1, if_true, if_pos rfl]
            simp only [show ((0 : Nat) == 1) = false from rfl, Bool.false_eq_true,
              if_false]
            refine ⟨?_, ?_, ?_, ?_⟩
            · simp [ihr.1]
            · simpa using ihr.2.1
            · intro x hx
              rcases List.mem_cons.mp hx with h | h
              · right; exact h
              · exact ihr.2.2.1 x h
            · intro c' r' hr hc'
              have := ihr.2.2.2 c' r' (by simpa using hr) hc'
              refine ⟨this.1, ?_⟩
              simpa using this.2
        · have ihr := ih dc hdc
          have h2b : (c == '.') = false := by simpa using h2
          have hne : ¬((c == '.') = true) := by simp [h2]
          simp only [get_number_chars]
          rw [if_pos h1, if_neg hne]
          refine ⟨?_, ?_, ?_, ?_⟩
          · simp [ihr.1]
          · simpa [List.count_cons, h2b] using ihr.2.1
          · intro x hx
            rcases List.mem_cons.mp hx with h | h
            · left
              subst h
              rcases Bool.or_eq_true_iff.mp h1 with h | h
              · exact h
              · exact absurd (by simpa using h) h2
            · exact ihr.2.2.1 x h
          · intro c' r' hr hc'
            have := ihr.2.2.2 c' r' (by simpa using hr) hc'
            refine ⟨this.1, ?_⟩
            simpa [List.count_cons, h2b] using this.2
      · have h1b : (isNumericChar c || c == '.') = false := by simpa using h1
        simp only [get_number_chars, h1b, Bool.false_eq_true, if_false]
        refine ⟨rfl, by simpa using hdc, by simp, ?_⟩
        intro c' r' hr hc'
        cases hr
        exact absurd hc' (by simp [h1b])

/-- Claim C7: the number scan consumes only digits and dots, consumes at most
one dot, loses no character (consumed text ++ rest = input), and when the
character after the consumed text would still extend a number (digit or dot)
it can only be a second dot, left unconsumed for the operator lexer; and
concretely, lexing the line `1.2.3` yields Float "1.2", Dot, Integer "3"
(followed by the EOF terminator the lexer always appends). -/
theorem number_scan_second_dot :
    (∀ cs : List Char,
        (get_number cs).1.token_value.data ++ (get_number cs).2 = cs
      ∧ (get_number cs).1.token_value.data.count '.' ≤ 1
      ∧ (∀ c ∈ (get_number cs).1.token_value.data,
            isNumericChar c = true ∨ c = '.')
      ∧ (∀ c' r', (get_number cs).2 = c' :: r' →
            (isNumericChar c' || c' == '.') = true →
            c' = '.' ∧ (get_number cs).1.token_value.data.count '.' = 1))
  ∧ lex "1.2.3" = .ok [⟨.FLOAT, "1.2"⟩, ⟨.DOT, "."⟩, ⟨.INT, "3"⟩, ⟨.EOF, "EOF"⟩] := by
  constructor
  · intro cs
    have h := get_number_chars_spec cs 0 (Nat.zero_le 1)
    have hval : (get_number cs).1.token_value = String.mk (get_number_chars cs 0).1 := by
      rcases heq : get_number_chars cs 0 with ⟨t, r⟩
      simp only [get_number, heq]
      split <;> rfl
    have hrest : (get_number cs).2 = (get_number_chars cs 0).2 := rfl
    rw [hval, hrest]
    exact ⟨h.1, by simpa using h.2.1, h.2.2.1,
      fun c' r' hr hc' => ⟨(h.2.2.2 c' r' hr hc').1,
        by simpa using (h.2.2.2 c' r' hr hc').2⟩⟩
  · rfl

/-- Claim C1 (code bug): the call `f()` does complete with the `rn` value as
its result and a cleared `return_value`, but the caller frame is NOT current
again afterwards: `execute_func` overwrites `current_scope` without saving
it and `clean_scope` pops the callee parameter frame into `current_scope`
and then discards one more frame, so after the call the current scope is the
empty parameter frame, the caller binding `x ↦ 1` is gone — the following
`println(x)` dies with the NameError for `x` — and the function table was
popped and dropped as well. -/
theorem call_completion_loses_caller_frame :
    (func_call 20 (.ID "f") [] stateC1).2 = .ok (.Int 5)
  ∧ (func_call 20 (.ID "f") [] stateC1).1.return_value = none
  ∧ stateC1.current_scope = [("x", some (.Int 1))]
  ∧ (func_call 20 (.ID "f") [] stateC1).1.current_scope = []
  ∧ (func_call 20 (.ID "f") [] stateC1).1.scopes = []
  ∧ (func_call 20 (.ID "f") [] stateC1).1.functions = []
  ∧ (runProgram 20 progC1).2 = .error (.rte "RTE: Variable `x` not defined") :=
  ⟨rfl, rfl, rfl, rfl, rfl, rfl, rfl⟩

/-- Counterexample to C2 as stated: `println(5 / 0);` does not report a
controlled fatal diagnostic — it ends in the Rust divide-by-zero panic (an
uncontrolled crash, and no ArithmeticError exists in the interpreter's
error vocabulary), though indeed with no output emitted before it. -/
theorem div_zero_not_controlled_cex :
    (runProgram 10 progC2).2 = .error (.panicked "attempt to divide by zero")
  ∧ (∀ msg, (runProgram 10 progC2).2 ≠ .error (.rte msg))
  ∧ (runProgram 10 progC2).1.output = "" := by
  refine ⟨rfl, ?_, rfl⟩
  intro msg h
  have h0 : (runProgram 10 progC2).2
      = .error (.panicked "attempt to divide by zero") := rfl
  rw [h0] at h
  simp at h

/-- Claim C2 amended: integer division by zero is unguarded and surfaces as
the Rust divide-by-zero panic for every Integer left operand — an
uncontrolled crash rather than a controlled interpreter diagnostic — and
`println(5 / 0);` reaches that panic with no output emitted before it. -/
theorem div_zero_rust_panic :
    (∀ i : Int, divLazy (.Int i) (.Int 0)
        = .error (.panicked "attempt to divide by zero"))
  ∧ (runProgram 10 progC2).2 = .error (.panicked "attempt to divide by zero")
  ∧ (runProgram 10 progC2).1.output = "" := by
  refine ⟨?_, rfl, rfl⟩
  intro i
  simp [divLazy]

/-- Claim C3: a declaration whose initializer is not a literal stores the
unevaluated expression itself; every read of the name then evaluates that
stored expression in the state active at the read (the read is literally the
evaluation of the stored expression in the current state, so nothing is
cached and no declaration-time scope is consulted); concretely, after
`let a = 1; let b = a + 1;` a read of `b` yields 2, and after the
intervening re-declaration `let a = 5;` a read of `b` yields 6, the binding
of `b` still holding the unevaluated `a + 1` both times. -/
theorem deferred_binding_call_by_name
    (σ σ' : ExecState) (name : String) (e : ASTNode) (n : Nat)
    (hlit : isLiteralNode e = false)
    (hlook : get_variable_value σ' name = .ok (some (.Expression e))) :
    var_declaration (.ID name) (some e) σ
        = ({ σ with current_scope :=
              mapInsert σ.current_scope name (some (.Expression e)) }, .ok .Null)
  ∧ evaluate (n + 1) (.ID name) σ' = evaluate n e σ'
  ∧ ((evaluate 10 (.ID "b") stateC3).2 = .ok (.VInt 2)
      ∧ (evaluate 10 (.ID "b") stateC3').2 = .ok (.VInt 6)
      ∧ mapGet stateC3.current_scope "b" = some (some (.Expression exprC3))
      ∧ mapGet stateC3'.current_scope "b" = some (some (.Expression exprC3))) := by
  refine ⟨?_, ?_, rfl, rfl, rfl, rfl⟩
  · cases e <;> first
      | rfl
      | simp [isLiteralNode] at hlit
  · have h : evaluate (n + 1) (.ID name) σ' =
        (match get_variable_value σ' name with
         | .error err => (σ', .error err)
         | .ok none => (σ', .error (.panicked unwrapPanicMsg))
         | .ok (some (.Expression expr)) => evaluate n expr σ'
         | .ok (some rn_lazy_val) => (σ', lazy2_value rn_lazy_val)) := rfl
    rw [h, hlook]

/-- Witness for C3 at `σ = initState`, `σ' = stateC3`, `name = "b"`,
`e = exprC3`, `n = 9`. -/
theorem deferred_binding_call_by_name_witness :
    evaluate 10 (.ID "b") stateC3 = evaluate 9 exprC3 stateC3
  ∧ (evaluate 10 (.ID "b") stateC3).2 = .ok (.VInt 2) :=
  ⟨(deferred_binding_call_by_name initState stateC3 "b" exprC3 9 rfl rfl).2.1,
   (deferred_binding_call_by_name initState stateC3 "b" exprC3 9 rfl rfl).2.2.1⟩

/-- Counterexample to C4 as stated: the top-level `rn 5;` leaves
`return_value = Some 5`, and the later call `f()` CONSUMES it — the callee
body is cut short after its first statement (its `println("B")` never runs),
the stale 5 becomes the call's result, and `return_value` is cleared — so
"never consumed by any later step" is false for this program. -/
theorem top_level_rn_consumed_cex :
    stateC4.return_value = some (.VInt 5)
  ∧ (func_call 20 (.ID "f") [] stateC4).2 = .ok (.Int 5)
  ∧ (func_call 20 (.ID "f") [] stateC4).1.return_value = none
  ∧ (func_call 20 (.ID "f") [] stateC4).1.output = ""
  ∧ (runProgram 20 progC4).1.return_value = none :=
  ⟨rfl, rfl, rfl, rfl, rfl⟩

/-- Claim C4 amended: a top-level `rn` sets `return_value` and does not
terminate the program — every remaining top-level statement still executes
(`rn 5; println("A");` still prints `A`), and with no later user-defined
call the value is indeed never consumed — but a later user-defined function
call does consume a stale `return_value`: it truncates the callee body,
becomes the call's result and is then cleared. -/
theorem top_level_rn_amended :
    ((runProgram 20 progC4a).1.output = "A\n"
      ∧ (runProgram 20 progC4a).2 = .ok ()
      ∧ (runProgram 20 progC4a).1.return_value = some (.VInt 5))
  ∧ ((runProgram 20 progC4).2 = .ok ()
      ∧ (runProgram 20 progC4).1.return_value = none
      ∧ (runProgram 20 progC4).1.output = "") :=
  ⟨⟨rfl, rfl, rfl⟩, rfl, rfl, rfl⟩

/-- Claim C8: for every execution of postfix `++`/`--`, an operand that is
not a bare identifier is the controlled "Wrong use" fatal error; a bare
identifier bound to an Int or Float is incremented/decremented by writing
the new binding into the CURRENT scope only — the state change touches
nothing but `current_scope`, so a binding found in an enclosing frame is
left unchanged there — and the operation yields the post-operation value;
a bare identifier bound to any other stored value is the controlled
"Wrong use" fatal error. -/
theorem postfix_incdec_current_scope_only (σ : ExecState) (name : String) :
    (∀ e : ASTNode, (∀ m, e ≠ .ID m) →
        evaluate_unary_expression "++" e σ
            = (σ, .error (.rte "RTE: Wrong use of `++`"))
      ∧ evaluate_unary_expression "--" e σ
            = (σ, .error (.rte "RTE: Wrong use of `--`")))
  ∧ (∀ v : Int, get_variable_value σ name = .ok (some (.Int v)) →
        evaluate_unary_expression "++" (.ID name) σ
            = ({ σ with current_scope :=
                  mapInsert σ.current_scope name (some (.Int (v + 1))) },
               .ok (.VInt (v + 1)))
      ∧ evaluate_unary_expression "--" (.ID name) σ
            = ({ σ with current_scope :=
                  mapInsert σ.current_scope name (some (.Int (v - 1))) },
               .ok (.VInt (v - 1))))
  ∧ (∀ q : Rat, get_variable_value σ name = .ok (some (.Float q)) →
        evaluate_unary_expression "++" (.ID name) σ
            = ({ σ with current_scope :=
                  mapInsert σ.current_scope name (some (.Float (q + 1))) },
               .ok (.VFloat (q + 1)))
      ∧ evaluate_unary_expression "--" (.ID name) σ
            = ({ σ with current_scope :=
                  mapInsert σ.current_scope name (some (.Float (q - 1))) },
               .ok (.VFloat (q - 1))))
  ∧ (∀ lz : LazyResult, get_variable_value σ name = .ok (some lz) →
        (∀ v, lz ≠ .Int v) → (∀ q, lz ≠ .Float q) →
        evaluate_unary_expression "++" (.ID name) σ
            = (σ, .error (.rte "RTE: Wrong use of `++`"))
      ∧ evaluate_unary_expression "--" (.ID name) σ
            = (σ, .error (.rte "RTE: Wrong use of `--`"))) := by
  have hpp : evaluate_unary_expression "++" (.ID name) σ =
      (match get_variable_value σ name with
       | .error e => (σ, .error e)
       | .ok none => (σ, .error (.panicked unwrapPanicMsg))
       | .ok (some lz) =>
           match lz with
           | .Int val =>
               ({ σ with current_scope :=
                   mapInsert σ.current_scope name (some (.Int (val + 1))) },
                .ok (.VInt (val + 1)))
           | .Float val =>
               ({ σ with current_scope :=
                   mapInsert σ.current_scope name (some (.Float (val + 1))) },
                .ok (.VFloat (val + 1)))
           | _ => (σ, .error (.rte "RTE: Wrong use of `++`"))) := rfl
  have hmm : evaluate_unary_expression "--" (.ID name) σ =
      (match get_variable_value σ name with
       | .error e => (σ, .error e)
       | .ok (some (.Int val)) =>
           ({ σ with current_scope :=
               mapInsert σ.current_scope name (some (.Int (val - 1))) },
            .ok (.VInt (val - 1)))
       | .ok (some (.Float val)) =>
           ({ σ with current_scope :=
               mapInsert σ.current_scope name (some (.Float (val - 1))) },
            .ok (.VFloat (val - 1)))
       | .ok _ => (σ, .error (.rte "RTE: Wrong use of `--`"))) := rfl
  refine ⟨?_, ?_, ?_, ?_⟩
  · intro e he
    constructor <;> cases e <;> first
      | rfl
      | exact absurd rfl (he _)
  · intro v h
    rw [hpp, hmm, h]
    exact ⟨rfl, rfl⟩
  · intro q h
    rw [hpp, hmm, h]
    exact ⟨rfl, rfl⟩
  · intro lz h hInt hFloat
    rw [hpp, hmm, h]
    cases lz <;> first
      | exact ⟨rfl, rfl⟩
      | exact absurd rfl (hInt _)
      | exact absurd rfl (hFloat _)

/-- Witness for C8 at `i ↦ 0` found in the enclosing frame: `i++` yields 1,
writes `i ↦ 1` into the current scope, and leaves the enclosing frame's
`i ↦ 0` untouched. -/
theorem postfix_incdec_current_scope_only_witness :
    evaluate_unary_expression "++" (.ID "i") stateC8
      = ({ stateC8 with current_scope := [("i", some (.Int 1))] }, .ok (.VInt 1))
  ∧ (evaluate_unary_expression "++" (.ID "i") stateC8).1.scopes
      = [[("i", some (.Int 0))]] := by
  have h := ((postfix_incdec_current_scope_only stateC8 "i").2.1 0 rfl).1
  exact ⟨h, by rw [h]; rfl⟩

/-- Counterexample to C9 as stated: on the empty binding of `let a;`, the
`--` path does NOT reach an unwrap panic — its match covers the empty
binding with the wildcard arm and issues the controlled "Wrong use of `--`"
diagnostic. -/
theorem empty_binding_decrement_cex :
    (evaluate_unary_expression "--" (.ID "a") stateC9).2
        = .error (.rte "RTE: Wrong use of `--`")
  ∧ (∀ msg, (evaluate_unary_expression "--" (.ID "a") stateC9).2
        ≠ .error (.panicked msg)) := by
  refine ⟨rfl, ?_⟩
  intro msg h
  have h0 : (evaluate_unary_expression "--" (.ID "a") stateC9).2
      = .error (.rte "RTE: Wrong use of `--`") := rfl
  rw [h0] at h
  simp at h

/-- Claim C9 amended: reading a declared-but-empty binding by identifier
evaluation or by `++` reaches the `unwrap` of the empty binding and panics
— an uncontrolled crash distinct from the controlled NameError used for
undeclared names — but `--` on the same empty binding takes its wildcard
match arm and issues the controlled "Wrong use of `--`" diagnostic instead
of panicking. -/
theorem empty_binding_unwrap_panics
    (σ : ExecState) (name : String) (n : Nat)
    (h : get_variable_value σ name = .ok none) :
    evaluate (n + 1) (.ID name) σ = (σ, .error (.panicked unwrapPanicMsg))
  ∧ evaluate_unary_expression "++" (.ID name) σ
      = (σ, .error (.panicked unwrapPanicMsg))
  ∧ evaluate_unary_expression "--" (.ID name) σ
      = (σ, .error (.rte "RTE: Wrong use of `--`"))
  ∧ (evaluate 10 (.ID "zz") stateC9).2
      = .error (.rte "RTE: Variable `zz` not defined") := by
  have hid : evaluate (n + 1) (.ID name) σ =
      (match get_variable_value σ name with
       | .error err => (σ, .error err)
       | .ok none => (σ, .error (.panicked unwrapPanicMsg))
       | .ok (some (.Expression expr)) => evaluate n expr σ
       | .ok (some rn_lazy_val) => (σ, lazy2_value rn_lazy_val)) := rfl
  have hpp : evaluate_unary_expression "++" (.ID name) σ =
      (match get_variable_value σ name with
       | .error e => (σ, .error e)
       | .ok none => (σ, .error (.panicked unwrapPanicMsg))
       | .ok (some lz) =>
           match lz with
           | .Int val =>
               ({ σ with current_scope :=
                   mapInsert σ.current_scope name (some (.Int (val + 1))) },
                .ok (.VInt (val + 1)))
           | .Float val =>
               ({ σ with current_scope :=
                   mapInsert σ.current_scope name (some (.Float (val + 1))) },
                .ok (.VFloat (val + 1)))
           | _ => (σ, .error (.rte "RTE: Wrong use of `++`"))) := rfl
  have hmm : evaluate_unary_expression "--" (.ID name) σ =
      (match get_variable_value σ name with
       | .error e => (σ, .error e)
       | .ok (some (.Int val)) =>
           ({ σ with current_scope :=
               mapInsert σ.current_scope name (some (.Int (val - 1))) },
            .ok (.VInt (val - 1)))
       | .ok (some (.Float val)) =>
           ({ σ with current_scope :=
               mapInsert σ.current_scope name (some (.Float (val - 1))) },
            .ok (.VFloat (val - 1)))
       | .ok _ => (σ, .error (.rte "RTE: Wrong use of `--`"))) := rfl
  rw [hid, hpp, hmm, h]
  exact ⟨rfl, rfl, rfl, rfl⟩

/-- Witness for C9's amended claim at the state after `let a;`. -/
theorem empty_binding_unwrap_panics_witness :
    evaluate 10 (.ID "a") stateC9 = (stateC9, .error (.panicked unwrapPanicMsg))
  ∧ evaluate_unary_expression "++" (.ID "a") stateC9
      = (stateC9, .error (.panicked unwrapPanicMsg)) :=
  ⟨(empty_binding_unwrap_panics stateC9 "a" 9 rfl).1,
   (empty_binding_unwrap_panics stateC9 "a" 9 rfl).2.1⟩

/-- Error propagation through the monad bind. -/
theorem M_bind_error {α β : Type} (x : M α) (f : α → M β) (s s' : ExecState)
    (e : Err) (h : x s = (s', .error e)) : (x >>= f) s = (s', .error e) := by
  show (match x s with
        | (s'', .ok a) => f a s''
        | (s'', .error err) => (s'', .error err)) = (s', .error e)
  rw [h]

theorem self_ref_aux : ∀ n : Nat,
    evaluate n (.ID "a") stateC10 = (stateC10, .error .fuel)
  ∧ evaluate n exprC10 stateC10 = (stateC10, .error .fuel)
  ∧ evaluate_binary_expression n (.ID "a") "+" (.Integer 1) stateC10
      = (stateC10, .error .fuel) := by
  intro n
  induction n with
  | zero => exact ⟨rfl, rfl, rfl⟩
  | succ n ih =>
      refine ⟨?_, ?_, ?_⟩
      · have h : evaluate (n + 1) (.ID "a") stateC10
            = evaluate n exprC10 stateC10 := rfl
        rw [h]
        exact ih.2.1
      · have h : evaluate (n + 1) exprC10 stateC10
            = evaluate_binary_expression n (.ID "a") "+" (.Integer 1) stateC10 := rfl
        rw [h]
        exact ih.2.2
      · exact M_bind_error (evaluate n (.ID "a")) _ stateC10 stateC10 .fuel ih.1

/-- Claim C10: after `let a = a + 1;` (a deferred binding whose stored
expression mentions its own name), every read of `a` re-enters the stored
expression, which reads `a` again: for EVERY fuel budget the evaluation of
the identifier exhausts the budget — it never yields a value, a controlled
diagnostic or a panic — i.e. identifier evaluation is not total and this
read diverges. -/
theorem self_referential_read_diverges : ∀ n : Nat,
    (evaluate n (.ID "a") stateC10).2 = .error .fuel
  ∧ mapGet stateC10.current_scope "a" = some (some (.Expression exprC10)) := by
  intro n
  exact ⟨by rw [(self_ref_aux n).1], rfl⟩

end Mar
